import Mathlib

/-!
Verification of the `pack` semantic-version and dependency-constraint engine.

Go strings are modelled as lists of characters (`GoStr`); all content the
grammar admits is ASCII, so Go's byte-wise operations coincide with
character-wise ones.  Go's `uint` components are modelled as `Nat` with the
explicit `2 ^ 32` bound that `strconv.ParseUint(_, 10, 32)` enforces, and the
Go `int`-typed `ComparisonOp` is modelled as `Int`.  Fallible parsers return
`Except`; `ParseDependency`, which can also panic, returns a dedicated
outcome type with a `panicked` constructor.
-/

namespace Pack

/-- Go strings modelled as character lists. -/
abbrev GoStr := List Char

/-- Model of `strings.Split(s, sep)` for a single-character separator.  Mirrors Go:
splitting the empty string yields one empty field. -/
def splitOnChar (sep : Char) : GoStr → List GoStr
  | [] => [[]]
  | c :: cs =>
    if c = sep then [] :: splitOnChar sep cs
    else
      match splitOnChar sep cs with
      | [] => [[c]]
      | g :: gs => (c :: g) :: gs

/-- Decimal value of a digit string, most significant digit first
(the accumulator fold `strconv` effectively performs). -/
def digitsVal (s : GoStr) : Nat :=
  s.foldl (fun a c => 10 * a + (c.toNat - 48)) 0

/-- Model of `strconv.ParseInt(s, 10, 64)` as used by `compareReleases`: optional
sign, one or more decimal digits (leading zeros allowed), value must fit
in a signed 64-bit integer. -/
def goParseInt64 (s : GoStr) : Option Int :=
  let core : GoStr → Option Nat := fun t =>
    if t ≠ [] ∧ t.all Char.isDigit then some (digitsVal t) else none
  match s with
  | '+' :: rest =>
    match core rest with
    | some n => if n ≤ 2 ^ 63 - 1 then some (n : Int) else none
    | none => none
  | '-' :: rest =>
    match core rest with
    | some n => if n ≤ 2 ^ 63 then some (-(n : Int)) else none
    | none => none
  | _ =>
    match core s with
    | some n => if n ≤ 2 ^ 63 - 1 then some (n : Int) else none
    | none => none

/-- Function `compareStrings` from version.go: walks both strings; a byte-wise
greater character on the left yields `-1`, smaller yields `1`; if one
string is a proper prefix the longer one yields `-1` for the left. -/
def compareStrings : GoStr → GoStr → Int
  | [], [] => 0
  | [], _ :: _ => 1
  | _ :: _, [] => -1
  | a :: as, b :: bs =>
    if a.toNat > b.toNat then -1
    else if a.toNat < b.toNat then 1
    else compareStrings as bs

/-- Go's `int64` subtraction: two's-complement wraparound into
`[-2^63, 2^63)`. -/
def int64Sub (a b : Int) : Int :=
  (a - b + 2 ^ 63) % 2 ^ 64 - 2 ^ 63

/-- The identifier-by-identifier loop inside `compareReleases`, including
the post-loop length comparison.  The numeric branch compares
`val := bnum - cnum` with Go's wrapping `int64` subtraction. -/
def relCmpSegs : List GoStr → List GoStr → Int
  | [], [] => 0
  | _ :: _, [] => -1
  | [], _ :: _ => 1
  | b :: bs, c :: cs =>
    match goParseInt64 b, goParseInt64 c with
    | some _, none => 1
    | none, some _ => -1
    | some bn, some cn =>
      if int64Sub bn cn > 0 then -1
      else if int64Sub bn cn < 0 then 1
      else relCmpSegs bs cs
    | none, none =>
      if compareStrings b c ≠ 0 then compareStrings b c else relCmpSegs bs cs

/-- Function `compareReleases` from version.go: equal when both strings are empty,
otherwise both are split on `.` and compared identifier by identifier. -/
def compareReleases (base comp : GoStr) : Int :=
  if base = [] ∧ comp = [] then 0
  else relCmpSegs (splitOnChar '.' base) (splitOnChar '.' comp)

/-- The `Version` struct: three numeric components plus a release string. -/
structure Version where
  Major : Nat
  Minor : Nat
  Patch : Nat
  Release : GoStr
deriving DecidableEq, Repr

/-- The `ComparisonOp` constants (`iota + 1` in the source); the Go type is
`int`, modelled as `Int` so that out-of-range operator values exist. -/
def Equal : Int := 1

/-- The `!=` operator constant. -/
def NotEqual : Int := 2

/-- The `>` operator constant. -/
def GreaterThan : Int := 3

/-- The `<` operator constant. -/
def LessThan : Int := 4

/-- The `>=` operator constant. -/
def GreaterEqual : Int := 5

/-- The `<=` operator constant. -/
def LessEqual : Int := 6

/-- The `~` operator constant. -/
def ApproxGreater : Int := 7

/-- Method `Version.Satisfies` from version.go: a `switch` over the operator with
no default case, so any unlisted operator value leaves `ok` false. -/
def satisfies (b : Version) (op : Int) (c : Version) : Bool :=
  if op = Equal then
    b.Major == c.Major && b.Minor == c.Minor && b.Patch == c.Patch &&
      b.Release == c.Release
  else if op = NotEqual then
    b.Major != c.Major || b.Minor != c.Minor || b.Patch != c.Patch ||
      b.Release != c.Release
  else if op = GreaterThan then
    decide (b.Major > c.Major) ||
      (b.Major == c.Major && decide (b.Minor > c.Minor)) ||
      (b.Major == c.Major && b.Minor == c.Minor && decide (b.Patch > c.Patch)) ||
      (b.Major == c.Major && b.Minor == c.Minor && b.Patch == c.Patch &&
        decide (compareReleases b.Release c.Release > 0))
  else if op = LessThan then
    decide (b.Major < c.Major) ||
      (b.Major == c.Major && decide (b.Minor < c.Minor)) ||
      (b.Major == c.Major && b.Minor == c.Minor && decide (b.Patch < c.Patch)) ||
      (b.Major == c.Major && b.Minor == c.Minor && b.Patch == c.Patch &&
        decide (compareReleases b.Release c.Release < 0))
  else if op = GreaterEqual then
    (b.Major == c.Major && b.Minor == c.Minor && b.Patch == c.Patch &&
      b.Release == c.Release) ||
      decide (b.Major > c.Major) ||
      (b.Major == c.Major && decide (b.Minor > c.Minor)) ||
      (b.Major == c.Major && b.Minor == c.Minor && decide (b.Patch > c.Patch)) ||
      (b.Major == c.Major && b.Minor == c.Minor && b.Patch == c.Patch &&
        decide (compareReleases b.Release c.Release ≥ 0))
  else if op = LessEqual then
    (b.Major == c.Major && b.Minor == c.Minor && b.Patch == c.Patch &&
      b.Release == c.Release) ||
      decide (b.Major < c.Major) ||
      (b.Major == c.Major && decide (b.Minor < c.Minor)) ||
      (b.Major == c.Major && b.Minor == c.Minor && decide (b.Patch < c.Patch)) ||
      (b.Major == c.Major && b.Minor == c.Minor && b.Patch == c.Patch &&
        decide (compareReleases b.Release c.Release ≤ 0))
  else if op = ApproxGreater then
    (b.Major == c.Major && b.Minor == c.Minor && b.Patch == c.Patch &&
      b.Release == c.Release) ||
      (b.Major == c.Major && decide (b.Minor > c.Minor)) ||
      (b.Major == c.Major && b.Minor == c.Minor && decide (b.Patch > c.Patch)) ||
      (b.Major == c.Major && b.Minor == c.Minor && b.Patch == c.Patch &&
        decide (compareReleases b.Release c.Release ≥ 0))
  else
    false

/-- Errors `ParseVersion` can return: the empty-string message, the
version-format message, and `strconv`'s out-of-range error. -/
inductive VerErr where
  | empty
  | form
  | range
deriving DecidableEq, Repr

instance {ε α : Type} [DecidableEq ε] [DecidableEq α] :
    DecidableEq (Except ε α) := fun
  | .error e, .error f =>
    if h : e = f then .isTrue (by rw [h])
    else .isFalse (by intro hc; cases hc; exact h rfl)
  | .error _, .ok _ => .isFalse (by intro hc; cases hc)
  | .ok _, .error _ => .isFalse (by intro hc; cases hc)
  | .ok a, .ok b =>
    if h : a = b then .isTrue (by rw [h])
    else .isFalse (by intro hc; cases hc; exact h rfl)

/-- One alternative `(0|[1-9][0-9]*)` of `rgxVersion`: consumes the maximal
leading digit run (the regex continuation after each number is a
non-digit, so a full match must consume the whole run) and rejects a
leading zero unless the run is exactly `0`. -/
def numTok (s : GoStr) : Option (GoStr × GoStr) :=
  let ds := s.takeWhile Char.isDigit
  let rest := s.dropWhile Char.isDigit
  match ds with
  | [] => none
  | c :: cs => if c = '0' ∧ cs ≠ [] then none else some (c :: cs, rest)

/-- One release identifier of `rgxVersion`, case-insensitive:
`[a-z][a-z0-9]*` or `[1-9][0-9]*`. -/
def identOk (s : GoStr) : Bool :=
  match s with
  | [] => false
  | c :: cs =>
    (c.isAlpha && cs.all Char.isAlphanum) ||
      (c.isDigit && c ≠ '0' && cs.all Char.isDigit)

/-- The release part of `rgxVersion`: identifiers separated by dots. -/
def releaseOk (r : GoStr) : Bool :=
  (splitOnChar '.' r).all identOk

/-- The anchored match of `rgxVersion`, returning the four capture groups
(the release group is empty when absent). -/
def rgxVersionMatch (s : GoStr) : Option (GoStr × GoStr × GoStr × GoStr) :=
  match numTok s with
  | none => none
  | some (majS, r1) =>
    match r1 with
    | '.' :: r2 =>
      match numTok r2 with
      | none => none
      | some (minS, r3) =>
        match r3 with
        | '.' :: r4 =>
          match numTok r4 with
          | none => none
          | some (patS, r5) =>
            match r5 with
            | [] => some (majS, minS, patS, [])
            | '-' :: rel =>
              if releaseOk rel then some (majS, minS, patS, rel) else none
            | _ => none
        | _ => none
    | _ => none

/-- Function `ParseVersion` from version.go: empty-string check, anchored regex
match, then `strconv.ParseUint(_, 10, 32)` on the three numeric groups. -/
def parseVersion (s : GoStr) : Except VerErr Version :=
  if s = [] then .error .empty
  else
    match rgxVersionMatch s with
    | none => .error .form
    | some (a, b, c, rel) =>
      if digitsVal a < 2 ^ 32 then
        if digitsVal b < 2 ^ 32 then
          if digitsVal c < 2 ^ 32 then
            .ok ⟨digitsVal a, digitsVal b, digitsVal c, rel⟩
          else .error .range
        else .error .range
      else .error .range

/-- The character for a single decimal digit. -/
def digitChar (d : Nat) : Char := Char.ofNat (48 + d)

/-- Decimal rendering of `n` with structural fuel (most significant digit
first); `natRepr` supplies `n` itself as fuel. -/
def natReprAux : Nat → Nat → GoStr
  | 0, _ => []
  | _ + 1, 0 => []
  | f + 1, n + 1 => natReprAux f ((n + 1) / 10) ++ [digitChar ((n + 1) % 10)]

/-- Rendering of an unsigned integer as `fmt.Sprintf` with `%d` does. -/
def natRepr (n : Nat) : GoStr :=
  if n = 0 then ['0'] else natReprAux n n

/-- Method `Version.String` from version.go:
`major.minor.patch` plus `-release` when the release is non-empty. -/
def verText (v : Version) : GoStr :=
  natRepr v.Major ++ '.' :: natRepr v.Minor ++ '.' :: natRepr v.Patch ++
    (if v.Release = [] then [] else '-' :: v.Release)

/-- Function `ParseOp` from version.go: one of the seven canonical tokens, anything
else is an operator-format error. -/
def parseOp (s : GoStr) : Except Unit Int :=
  if s = ['='] then .ok Equal
  else if s = ['!', '='] then .ok NotEqual
  else if s = ['>'] then .ok GreaterThan
  else if s = ['<'] then .ok LessThan
  else if s = ['>', '='] then .ok GreaterEqual
  else if s = ['<', '='] then .ok LessEqual
  else if s = ['~'] then .ok ApproxGreater
  else .error ()

/-- A `Constraint`: operator plus version. -/
structure Constraint where
  Operator : Int
  Version : Version
deriving DecidableEq, Repr

/-- A `Dependency`: name, constraints in encounter order, optional URL. -/
structure Dependency where
  Name : GoStr
  Constraints : List Constraint
  URL : GoStr
deriving DecidableEq, Repr

/-- The errors `ParseDependency` can return: the name-format, the
constraint-format, the url-format and (via `ParseOp`, unreachable from
tokens the constraint regex accepted) the operator-format message. -/
inductive DepErr where
  | nameFormat
  | constraintFormat
  | urlFormat
  | opFormat
deriving DecidableEq, Repr

/-- Outcome of `ParseDependency`, with a distinct constructor for the
`panic` call it contains. -/
inductive DepOut where
  | ok (d : Dependency)
  | err (e : DepErr)
  | panicked
deriving DecidableEq, Repr

/-- The operator group `(=|!=|>|<|>=|<=|~)?` of `rgxConstraint`.  The
version part must begin with a digit, so the regex's ordered alternation
is equivalent to peeling the longest operator token first. -/
def peelOp (t : GoStr) : GoStr × GoStr :=
  match t with
  | '!' :: '=' :: r => (['!', '='], r)
  | '>' :: '=' :: r => (['>', '='], r)
  | '<' :: '=' :: r => (['<', '='], r)
  | '=' :: r => (['='], r)
  | '>' :: r => (['>'], r)
  | '<' :: r => (['<'], r)
  | '~' :: r => (['~'], r)
  | _ => ([], t)

/-- A character of the release class `[a-z0-9\-\.]` of `rgxConstraint`
(case-insensitive). -/
def relCls (c : Char) : Bool :=
  c.isAlphanum || c = '-' || c = '.'

/-- The version group of `rgxConstraint`:
`[0-9]\.[0-9]+\.[0-9]+(?:-[a-z0-9\-\.]+)?` anchored at the end — note the
single-digit major. -/
def verTokOk (s : GoStr) : Bool :=
  match s with
  | d :: '.' :: rest =>
    d.isDigit &&
      (let r1 := rest.takeWhile Char.isDigit
       let r2 := rest.dropWhile Char.isDigit
       !r1.isEmpty &&
         match r2 with
         | '.' :: rest2 =>
           let p1 := rest2.takeWhile Char.isDigit
           let p2 := rest2.dropWhile Char.isDigit
           !p1.isEmpty &&
             match p2 with
             | [] => true
             | '-' :: tl => !tl.isEmpty && tl.all relCls
             | _ => false
         | _ => false)
  | _ => false

/-- Full match of `rgxConstraint` on one token, returning the operator and
version capture groups. -/
def matchConstraint (t : GoStr) : Option (GoStr × GoStr) :=
  let (opS, rest) := peelOp t
  if verTokOk rest then some (opS, rest) else none

/-- A character of the URL class `[a-z0-9\?\-_@\.:/=%&]` of `rgxDepUrl`
(case-insensitive). -/
def urlCls (c : Char) : Bool :=
  c.isAlphanum || c = '?' || c = '-' || c = '_' || c = '@' || c = '.' ||
    c = ':' || c = '/' || c = '=' || c = '%' || c = '&'

/-- The optional `(?::(...))?$` tail of `rgxDepUrl`. -/
def urlTailOk (rest : GoStr) : Bool :=
  match rest with
  | [] => true
  | ':' :: u => !u.isEmpty && u.all urlCls
  | _ => false

/-- Match of `rgxDepUrl` from dependency.go:
`(?i)^(git|bzr|hg)(?::(url))?$`. -/
def depUrlOk (t : GoStr) : Bool :=
  let lt := t.map Char.toLower
  if lt.take 3 = ['g', 'i', 't'] ∨ lt.take 3 = ['b', 'z', 'r'] then
    urlTailOk (t.drop 3)
  else if lt.take 2 = ['h', 'g'] then urlTailOk (t.drop 2)
  else false

/-- The token loop of `ParseDependency`: a token matching the constraint
regex yields a constraint (operator `Equal` when absent; a failed
`ParseVersion` on the captured version hits the `panic`); the first
non-matching token is given a chance as the URL only when it is last,
otherwise parsing fails with the constraint-format error. -/
def depLoop (name : GoStr) (acc : List Constraint) :
    List GoStr → DepOut
  | [] => .ok ⟨name, acc, []⟩
  | t :: ts =>
    match matchConstraint t with
    | some (opS, verS) =>
      match (if opS.isEmpty then .ok Equal else parseOp opS :
          Except Unit Int) with
      | .error _ => .err .opFormat
      | .ok op =>
        match parseVersion verS with
        | .error _ => .panicked
        | .ok v => depLoop name (acc ++ [⟨op, v⟩]) ts
    | none =>
      match ts with
      | [] => if depUrlOk t then .ok ⟨name, acc, t⟩ else .err .urlFormat
      | _ :: _ => .err .constraintFormat

/-- Function `ParseDependency` from dependency.go: split on spaces, reject an empty
input or empty first token with the name-format error (the only name
check the code performs), then run the token loop. -/
def parseDependency (s : GoStr) : DepOut :=
  match splitOnChar ' ' s with
  | [] => .err .nameFormat
  | p0 :: rest =>
    if s = [] ∨ p0 = [] then .err .nameFormat
    else depLoop p0 [] rest

/- Sanity checks for the dependency parser against
TestParseDependency / TestDependency_String expectations that the code
actually meets. -/
example :
    parseDependency
        ['n', 'a', 'm', 'e', ' ', '<', '3', '.', '2', '.', '5', ' ', '~',
          '4', '.', '2', '.', '5'] =
      .ok ⟨['n', 'a', 'm', 'e'],
        [⟨LessThan, ⟨3, 2, 5, []⟩⟩, ⟨ApproxGreater, ⟨4, 2, 5, []⟩⟩], []⟩ := by
  decide
example :
    parseDependency ['n', 'a', 'm', 'e'] =
      .ok ⟨['n', 'a', 'm', 'e'], [], []⟩ := by decide
example :
    parseDependency
        ['n', 'a', 'm', 'e', ' ', '1', '.', '2', '.', '3', ' ', 'g', 'i',
          't', ':', 'a', '.', 'b'] =
      .ok ⟨['n', 'a', 'm', 'e'], [⟨Equal, ⟨1, 2, 3, []⟩⟩],
        ['g', 'i', 't', ':', 'a', '.', 'b']⟩ := by decide
example :
    parseDependency ['n', 'a', 'm', 'e', ' ', 'a', 's', 'd', 'f', ' ', 'x'] =
      .err .constraintFormat := by decide

/- Sanity checks against TestParse from version_test.go. -/
example : parseVersion [] = .error .empty := by decide
example : parseVersion ['2'] = .error .form := by decide
example : parseVersion ['a', '.', '2'] = .error .form := by decide
example : parseVersion ['0', '4', '.', '2', '.', '1'] = .error .form := by decide
example : parseVersion ['4', '.', '2', '.', '0', '1'] = .error .form := by decide
example : parseVersion ['2', '.', '1', '.', '3'] = .ok ⟨2, 1, 3, []⟩ := by decide
example :
    parseVersion ['4', '.', '2', '.', '1', '-', '.', 'p', 'r', 'e'] =
      .error .form := by decide
example : parseVersion ['4', '.', '2', '.', '1', '-'] = .error .form := by decide
example :
    parseVersion ['4', '.', '2', '.', '1', '-', '1', 'p', 'r', 'e'] =
      .error .form := by decide
example :
    parseVersion ['4', '.', '2', '.', '1', '-', '0', '1'] = .error .form := by
  decide
example :
    parseVersion ['4', '.', '2', '.', '1', '-', 'p', 'r', 'e', '.', '1'] =
      .ok ⟨4, 2, 1, ['p', 'r', 'e', '.', '1']⟩ := by decide
example : verText ⟨0, 0, 0, []⟩ = ['0', '.', '0', '.', '0'] := by decide
example :
    verText ⟨1, 2, 3, ['p', 'r', 'e']⟩ =
      ['1', '.', '2', '.', '3', '-', 'p', 'r', 'e'] := by decide
example : verText ⟨12, 0, 3, []⟩ = ['1', '2', '.', '0', '.', '3'] := by decide

/- Sanity checks against TestCompareReleases from version_test.go. -/
example : compareReleases [] [] = 0 := by decide
example : compareReleases [] ['a'] = 1 := by decide
example : compareReleases ['a'] [] = -1 := by decide
example : compareReleases ['a'] ['a'] = 0 := by decide
example : compareReleases ['1'] ['a'] = 1 := by decide
example : compareReleases ['a'] ['1'] = -1 := by decide
example : compareReleases ['a'] ['a', '.', 'b'] = 1 := by decide
example : compareReleases ['a', '.', 'b'] ['a'] = -1 := by decide
example : compareReleases ['a', '1'] ['a', '2'] = 1 := by decide
example : compareReleases ['a', '2'] ['a', '1'] = -1 := by decide
example : compareReleases ['a', 'b'] ['a', 'b', 'c'] = 1 := by decide
example : compareReleases ['a', 'b', 'c'] ['a', 'b'] = -1 := by decide
example : compareReleases ['a', '.', '1'] ['a', '.', '2'] = 1 := by decide
example : compareReleases ['a', '.', '2'] ['a', '.', '1'] = -1 := by decide
example : compareReleases ['1', '.', 'a'] ['2', '.', 'a'] = 1 := by decide
example : compareReleases ['2', '.', 'a'] ['1', '.', 'a'] = -1 := by decide

/- Sanity checks against TestSatisfies (a representative selection). -/
example : satisfies ⟨1, 0, 0, []⟩ Equal ⟨1, 0, 0, []⟩ = true := by decide
example : satisfies ⟨1, 0, 0, ['a']⟩ Equal ⟨1, 0, 0, []⟩ = false := by decide
example : satisfies ⟨1, 0, 1, []⟩ GreaterThan ⟨1, 0, 0, []⟩ = true := by decide
example : satisfies ⟨1, 0, 0, []⟩ GreaterThan ⟨1, 0, 0, ['a']⟩ = true := by decide
example : satisfies ⟨1, 0, 0, ['a']⟩ LessThan ⟨1, 0, 0, []⟩ = true := by decide
example : satisfies ⟨1, 0, 0, ['a']⟩ GreaterEqual ⟨1, 0, 0, []⟩ = false := by decide
example : satisfies ⟨1, 1, 0, []⟩ ApproxGreater ⟨1, 0, 0, []⟩ = true := by decide
example : satisfies ⟨2, 0, 0, []⟩ ApproxGreater ⟨1, 0, 0, []⟩ = false := by decide
example : satisfies ⟨1, 0, 0, []⟩ ApproxGreater ⟨1, 1, 0, []⟩ = false := by decide
example : satisfies ⟨1, 0, 0, ['a']⟩ ApproxGreater ⟨1, 0, 0, []⟩ = false := by decide
example : satisfies ⟨1, 0, 0, []⟩ ApproxGreater ⟨1, 0, 0, ['a']⟩ = true := by decide

/-! Helper lemmas about the comparison machinery. -/

theorem splitOnChar_ne_nil (sep : Char) (s : GoStr) :
    splitOnChar sep s ≠ [] := by
  induction s with
  | nil => simp [splitOnChar]
  | cons c cs ih =>
    simp only [splitOnChar]
    split
    · simp
    · split
      · simp
      · simp

theorem splitOnChar_eq_nil_singleton (sep : Char) (s : GoStr)
    (h : splitOnChar sep s = [[]]) : s = [] := by
  cases s with
  | nil => rfl
  | cons c cs =>
    exfalso
    by_cases hc : c = sep
    · rw [show splitOnChar sep (c :: cs) = [] :: splitOnChar sep cs from by
        simp [splitOnChar, hc]] at h
      simp at h
      exact splitOnChar_ne_nil sep cs h
    · cases hsp : splitOnChar sep cs with
      | nil => exact splitOnChar_ne_nil sep cs hsp
      | cons g gs =>
        rw [show splitOnChar sep (c :: cs) = (c :: g) :: gs from by
          simp [splitOnChar, hc, hsp]] at h
        simp at h

theorem goParseInt64_nil : goParseInt64 [] = none := by decide

/-- With equal numeric triples, `GreaterThan` reduces to the release
comparison. -/
theorem satisfies_gt_same (mj mn pt : Nat) (r1 r2 : GoStr) :
    satisfies ⟨mj, mn, pt, r1⟩ GreaterThan ⟨mj, mn, pt, r2⟩ =
      decide (compareReleases r1 r2 > 0) := by
  simp [satisfies, Equal, NotEqual, GreaterThan]

/-- With equal numeric triples, `LessThan` reduces to the release
comparison. -/
theorem satisfies_lt_same (mj mn pt : Nat) (r1 r2 : GoStr) :
    satisfies ⟨mj, mn, pt, r1⟩ LessThan ⟨mj, mn, pt, r2⟩ =
      decide (compareReleases r1 r2 < 0) := by
  simp [satisfies, Equal, NotEqual, GreaterThan, LessThan]

/-- A release whose first dot-separated identifier is non-numeric (in the
`strconv.ParseInt` sense) compares below the empty release. -/
theorem compareReleases_alpha_empty (r : GoStr) (hr : r ≠ [])
    (h : goParseInt64 ((splitOnChar '.' r).headI) = none) :
    compareReleases r [] = -1 := by
  obtain ⟨s1, t1, e1⟩ := List.exists_cons_of_ne_nil (splitOnChar_ne_nil '.' r)
  rw [e1] at h
  simp only [List.headI] at h
  unfold compareReleases
  rw [if_neg (by simp [hr])]
  show relCmpSegs (splitOnChar '.' r) (splitOnChar '.' []) = -1
  rw [e1]
  show relCmpSegs (s1 :: t1) [[]] = -1
  unfold relCmpSegs
  rw [h, goParseInt64_nil]
  cases s1 with
  | nil =>
    have ht1 : t1 ≠ [] := by
      intro hc
      exact hr (splitOnChar_eq_nil_singleton '.' r (by rw [e1, hc]))
    obtain ⟨x, xs, ex⟩ := List.exists_cons_of_ne_nil ht1
    simp only [compareStrings]
    rw [ex]
    simp [relCmpSegs]
  | cons a as =>
    simp [compareStrings]

/-- The empty release compares above a release whose first identifier is
non-numeric. -/
theorem compareReleases_empty_alpha (r : GoStr) (hr : r ≠ [])
    (h : goParseInt64 ((splitOnChar '.' r).headI) = none) :
    compareReleases [] r = 1 := by
  obtain ⟨s1, t1, e1⟩ := List.exists_cons_of_ne_nil (splitOnChar_ne_nil '.' r)
  rw [e1] at h
  simp only [List.headI] at h
  unfold compareReleases
  rw [if_neg (by simp [hr])]
  show relCmpSegs (splitOnChar '.' []) (splitOnChar '.' r) = 1
  rw [e1]
  show relCmpSegs [[]] (s1 :: t1) = 1
  unfold relCmpSegs
  rw [h, goParseInt64_nil]
  cases s1 with
  | nil =>
    have ht1 : t1 ≠ [] := by
      intro hc
      exact hr (splitOnChar_eq_nil_singleton '.' r (by rw [e1, hc]))
    obtain ⟨x, xs, ex⟩ := List.exists_cons_of_ne_nil ht1
    simp only [compareStrings]
    rw [ex]
    simp [relCmpSegs]
  | cons a as =>
    simp [compareStrings]

/-- A release whose first identifier is numeric compares above the empty
release. -/
theorem compareReleases_num_empty (r : GoStr) (hr : r ≠ []) (n : Int)
    (h : goParseInt64 ((splitOnChar '.' r).headI) = some n) :
    compareReleases r [] = 1 := by
  obtain ⟨s1, t1, e1⟩ := List.exists_cons_of_ne_nil (splitOnChar_ne_nil '.' r)
  rw [e1] at h
  simp only [List.headI] at h
  unfold compareReleases
  rw [if_neg (by simp [hr])]
  show relCmpSegs (splitOnChar '.' r) (splitOnChar '.' []) = 1
  rw [e1]
  show relCmpSegs (s1 :: t1) [[]] = 1
  unfold relCmpSegs
  rw [h, goParseInt64_nil]

/-- The empty release compares below a release whose first identifier is
numeric. -/
theorem compareReleases_empty_num (r : GoStr) (hr : r ≠ []) (n : Int)
    (h : goParseInt64 ((splitOnChar '.' r).headI) = some n) :
    compareReleases [] r = -1 := by
  obtain ⟨s1, t1, e1⟩ := List.exists_cons_of_ne_nil (splitOnChar_ne_nil '.' r)
  rw [e1] at h
  simp only [List.headI] at h
  unfold compareReleases
  rw [if_neg (by simp [hr])]
  show relCmpSegs (splitOnChar '.' []) (splitOnChar '.' r) = -1
  rw [e1]
  show relCmpSegs [[]] (s1 :: t1) = -1
  unfold relCmpSegs
  rw [h, goParseInt64_nil]

/-- The wrapping subtraction agrees with the exact one while the exact
difference stays within the `int64` range. -/
theorem int64Sub_eq_sub (x y : Int) (hlo : -(2 ^ 63) ≤ x - y)
    (hhi : x - y < 2 ^ 63) : int64Sub x y = x - y := by
  unfold int64Sub
  have e63 : (2 : Int) ^ 63 = 9223372036854775808 := by norm_num
  have e64 : (2 : Int) ^ 64 = 18446744073709551616 := by norm_num
  rw [Int.emod_eq_of_lt (by omega) (by omega)]
  omega

/-- When both first identifiers are numeric and their difference does not
overflow `int64`, the comparison is decided by the integer values (note
the inverted sign in the source). -/
theorem compareReleases_num_num (r1 r2 : GoStr) (a b : Int)
    (h1 : goParseInt64 ((splitOnChar '.' r1).headI) = some a)
    (h2 : goParseInt64 ((splitOnChar '.' r2).headI) = some b)
    (hab : a < b) (hno : b - a ≤ 2 ^ 63) : compareReleases r1 r2 = 1 := by
  obtain ⟨s1, t1, e1⟩ := List.exists_cons_of_ne_nil (splitOnChar_ne_nil '.' r1)
  obtain ⟨s2, t2, e2⟩ := List.exists_cons_of_ne_nil (splitOnChar_ne_nil '.' r2)
  rw [e1] at h1
  rw [e2] at h2
  simp only [List.headI] at h1 h2
  have hr1 : r1 ≠ [] := by
    intro hc
    subst hc
    have e1' : s1 :: t1 = [[]] := e1.symm
    injection e1' with hs1 ht1
    rw [hs1, goParseInt64_nil] at h1
    cases h1
  unfold compareReleases
  rw [if_neg (by simp [hr1])]
  rw [e1, e2]
  simp only [relCmpSegs, h1, h2]
  have e63 : (2 : Int) ^ 63 = 9223372036854775808 := by norm_num
  rw [int64Sub_eq_sub a b (by omega) (by omega)]
  rw [if_neg (by omega), if_pos (by omega)]

/-- A numeric first identifier beats a non-numeric one (the source returns
`1` when the base side parses as an integer and the other does not). -/
theorem compareReleases_num_alpha (r1 r2 : GoStr) (a : Int)
    (h1 : goParseInt64 ((splitOnChar '.' r1).headI) = some a)
    (h2 : goParseInt64 ((splitOnChar '.' r2).headI) = none) :
    compareReleases r1 r2 = 1 := by
  obtain ⟨s1, t1, e1⟩ := List.exists_cons_of_ne_nil (splitOnChar_ne_nil '.' r1)
  obtain ⟨s2, t2, e2⟩ := List.exists_cons_of_ne_nil (splitOnChar_ne_nil '.' r2)
  rw [e1] at h1
  rw [e2] at h2
  simp only [List.headI] at h1 h2
  have hr1 : r1 ≠ [] := by
    intro hc
    subst hc
    have e1' : s1 :: t1 = [[]] := e1.symm
    injection e1' with hs1 ht1
    rw [hs1, goParseInt64_nil] at h1
    cases h1
  unfold compareReleases
  rw [if_neg (by simp [hr1])]
  rw [e1, e2]
  simp only [relCmpSegs, h1, h2]

/-! Lemmas for the version round trip. -/

theorem digitChar_isDigit (d : Nat) (h : d < 10) :
    (digitChar d).isDigit = true := by
  interval_cases d <;> decide

theorem digitChar_toNat (d : Nat) (h : d < 10) :
    (digitChar d).toNat = 48 + d := by
  interval_cases d <;> decide

theorem digitChar_ne_zero (d : Nat) (h : d < 10) (hd : d ≠ 0) :
    digitChar d ≠ '0' := by
  interval_cases d <;> simp_all <;> decide

theorem natReprAux_zero (f : Nat) : natReprAux f 0 = [] := by
  cases f <;> rfl

theorem digitsVal_append_singleton (xs : GoStr) (c : Char) :
    digitsVal (xs ++ [c]) = 10 * digitsVal xs + (c.toNat - 48) := by
  simp [digitsVal, List.foldl_append]

theorem natReprAux_all_digits (f : Nat) :
    ∀ n, n ≤ f → (natReprAux f n).all Char.isDigit = true := by
  induction f with
  | zero =>
    intro n hn
    interval_cases n
    decide
  | succ f ih =>
    intro n hn
    cases n with
    | zero => rw [natReprAux_zero]; decide
    | succ m =>
      show (natReprAux f ((m + 1) / 10) ++ [digitChar ((m + 1) % 10)]).all
          Char.isDigit = true
      rw [List.all_append]
      have hq : (m + 1) / 10 ≤ f := by omega
      rw [ih _ hq]
      simp [digitChar_isDigit _ (Nat.mod_lt _ (by omega))]

theorem natReprAux_val (f : Nat) :
    ∀ n, n ≤ f → digitsVal (natReprAux f n) = n := by
  induction f with
  | zero =>
    intro n hn
    interval_cases n
    decide
  | succ f ih =>
    intro n hn
    cases n with
    | zero => rw [natReprAux_zero]; decide
    | succ m =>
      show digitsVal
          (natReprAux f ((m + 1) / 10) ++ [digitChar ((m + 1) % 10)]) = m + 1
      rw [digitsVal_append_singleton,
        digitChar_toNat _ (Nat.mod_lt _ (by omega)),
        ih _ (by omega : (m + 1) / 10 ≤ f)]
      omega

theorem natReprAux_head (f : Nat) :
    ∀ n, n ≠ 0 → n ≤ f → ∃ c cs, natReprAux f n = c :: cs ∧ c ≠ '0' := by
  induction f with
  | zero =>
    intro n hn hf
    omega
  | succ f ih =>
    intro n hn hf
    cases n with
    | zero => omega
    | succ m =>
      have hstep : natReprAux (f + 1) (m + 1) =
          natReprAux f ((m + 1) / 10) ++ [digitChar ((m + 1) % 10)] := rfl
      by_cases hq : (m + 1) / 10 = 0
      · refine ⟨digitChar ((m + 1) % 10), [], ?_, ?_⟩
        · rw [hstep, hq, natReprAux_zero]
          rfl
        · exact digitChar_ne_zero _ (Nat.mod_lt _ (by omega)) (by omega)
      · obtain ⟨c, cs, hc, hc0⟩ := ih _ hq (by omega)
        exact ⟨c, cs ++ [digitChar ((m + 1) % 10)], by rw [hstep, hc]; rfl, hc0⟩

theorem natRepr_all_digits (n : Nat) : (natRepr n).all Char.isDigit = true := by
  unfold natRepr
  split
  · decide
  · exact natReprAux_all_digits n n le_rfl

theorem natRepr_ne_nil (n : Nat) : natRepr n ≠ [] := by
  unfold natRepr
  split
  · simp
  · rename_i hn
    obtain ⟨c, cs, hc, _⟩ := natReprAux_head n n hn le_rfl
    simp [hc]

theorem natRepr_val (n : Nat) : digitsVal (natRepr n) = n := by
  unfold natRepr
  split
  · rename_i hn
    rw [hn]
    decide
  · exact natReprAux_val n n le_rfl

theorem natRepr_leading (n : Nat) (c : Char) (cs : GoStr)
    (h : natRepr n = c :: cs) : c = '0' → cs = [] := by
  intro hc
  unfold natRepr at h
  split at h
  · injection h with h1 h2
    exact h2.symm
  · rename_i hn
    obtain ⟨c', cs', hc', h0⟩ := natReprAux_head n n hn le_rfl
    rw [hc'] at h
    injection h with h1 h2
    exact absurd (h1 ▸ hc) h0

/-- Behaviour of `takeWhile` and `dropWhile` on a list that starts with a block satisfying
the predicate followed by a non-satisfying (or empty) remainder. -/
theorem takeDrop_while_append (p : Char → Bool) (xs rest : GoStr)
    (hx : xs.all p = true) (hr : ∀ c, rest.head? = some c → p c = false) :
    (xs ++ rest).takeWhile p = xs ∧ (xs ++ rest).dropWhile p = rest := by
  induction xs with
  | nil =>
    simp only [List.nil_append]
    cases rest with
    | nil => simp
    | cons c cs =>
      have := hr c rfl
      simp [List.takeWhile_cons, List.dropWhile_cons, this]
  | cons x xs ih =>
    simp only [List.all_cons, Bool.and_eq_true] at hx
    have := ih hx.2
    simp [List.takeWhile_cons, List.dropWhile_cons, hx.1, this.1, this.2]

/-- Lemma: `numTok` consumes exactly a rendered number when what follows does not
start with a digit. -/
theorem numTok_natRepr_append (n : Nat) (rest : GoStr)
    (hrest : ∀ c, rest.head? = some c → c.isDigit = false) :
    numTok (natRepr n ++ rest) = some (natRepr n, rest) := by
  obtain ⟨htake, hdrop⟩ :=
    takeDrop_while_append Char.isDigit (natRepr n) rest
      (natRepr_all_digits n) hrest
  obtain ⟨c, cs, hc⟩ := List.exists_cons_of_ne_nil (natRepr_ne_nil n)
  unfold numTok
  rw [htake, hdrop, hc]
  show (if c = '0' ∧ cs ≠ [] then (none : Option (GoStr × GoStr))
    else some (c :: cs, rest)) = some (c :: cs, rest)
  rw [if_neg]
  intro ⟨h0, hcs⟩
  exact hcs (natRepr_leading n c cs hc h0)

/-- The version regex matches the canonical text of a version whose
release is empty or grammar-valid, recovering the four groups. -/
theorem rgxVersionMatch_verText (v : Version)
    (hrel : v.Release = [] ∨ releaseOk v.Release = true) :
    rgxVersionMatch (verText v) =
      some (natRepr v.Major, natRepr v.Minor, natRepr v.Patch, v.Release) := by
  obtain ⟨M, m, p, rel⟩ := v
  have hdot : ∀ (t : GoStr) (c : Char), ('.' :: t).head? = some c →
      c.isDigit = false := by
    intro t c hc
    injection hc with hc
    rw [← hc]
    decide
  cases rel with
  | nil =>
    have hvt : verText ⟨M, m, p, []⟩ =
        natRepr M ++ '.' :: (natRepr m ++ '.' :: (natRepr p ++ [])) := by
      simp [verText]
    rw [hvt]
    unfold rgxVersionMatch
    rw [numTok_natRepr_append M _ (hdot _)]
    show (match '.' :: (natRepr m ++ '.' :: (natRepr p ++ [])) with
      | '.' :: r2 => _
      | _ => none) = _
    simp only []
    rw [numTok_natRepr_append m _ (hdot _)]
    simp only []
    rw [numTok_natRepr_append p [] (by intro c hc; cases hc)]
  | cons rc rcs =>
    have hvt : verText ⟨M, m, p, rc :: rcs⟩ =
        natRepr M ++ '.' ::
          (natRepr m ++ '.' :: (natRepr p ++ '-' :: rc :: rcs)) := by
      simp [verText]
    rw [hvt]
    unfold rgxVersionMatch
    rw [numTok_natRepr_append M _ (hdot _)]
    simp only []
    rw [numTok_natRepr_append m _ (hdot _)]
    simp only []
    rw [numTok_natRepr_append p ('-' :: rc :: rcs)
      (by intro c hc; injection hc with hc; rw [← hc]; decide)]
    simp only []
    rw [if_pos]
    rcases hrel with hrel | hrel
    · cases hrel
    · exact hrel

/-- Everything `rgxVersionMatch` returns as a release group is empty or
grammar-valid. -/
theorem rgxVersionMatch_release_inv (s a b c : GoStr) (rel : GoStr)
    (h : rgxVersionMatch s = some (a, b, c, rel)) :
    rel = [] ∨ releaseOk rel = true := by
  unfold rgxVersionMatch at h
  repeat' split at h
  all_goals simp_all

/-- A successful `ParseVersion` yields bounded numeric components and an
empty or grammar-valid release. -/
theorem parseVersion_ok_inv (s : GoStr) (v : Version)
    (h : parseVersion s = .ok v) :
    v.Major < 2 ^ 32 ∧ v.Minor < 2 ^ 32 ∧ v.Patch < 2 ^ 32 ∧
      (v.Release = [] ∨ releaseOk v.Release = true) := by
  unfold parseVersion at h
  split at h
  · cases h
  · rename_i hs
    cases hm : rgxVersionMatch s with
    | none => rw [hm] at h; cases h
    | some q =>
      obtain ⟨a, b, c, rel⟩ := q
      rw [hm] at h
      simp only [] at h
      split at h
      · split at h
        · split at h
          · injection h with h
            rw [← h]
            refine ⟨by assumption, by assumption, by assumption, ?_⟩
            exact rgxVersionMatch_release_inv s a b c rel hm
          · cases h
        · cases h
      · cases h

/-- Serialization after a successful parse reconstructs the version. -/
theorem parseVersion_verText_ok (v : Version)
    (h1 : v.Major < 2 ^ 32) (h2 : v.Minor < 2 ^ 32) (h3 : v.Patch < 2 ^ 32)
    (h4 : v.Release = [] ∨ releaseOk v.Release = true) :
    parseVersion (verText v) = .ok v := by
  have hne : verText v ≠ [] := by
    unfold verText
    simp [List.append_eq_nil, natRepr_ne_nil]
  unfold parseVersion
  rw [if_neg hne, rgxVersionMatch_verText v h4]
  simp only [natRepr_val]
  rw [if_pos h1, if_pos h2, if_pos h3]

/-! Claim theorems. -/

/-- Claim C1, counterexample: with equal numeric triples, release `a`
against release `1` yields `GreaterThan = false` and `LessThan = true` —
the opposite of the claim, which says the alphanumeric identifier has
higher precedence. -/
theorem claim1_counterexample :
    satisfies ⟨1, 0, 0, ['a']⟩ GreaterThan ⟨1, 0, 0, ['1']⟩ = false ∧
      satisfies ⟨1, 0, 0, ['a']⟩ LessThan ⟨1, 0, 0, ['1']⟩ = true := by
  decide

/-- Claim C1 as amended: when at the first release position one identifier
is numeric and the other is not, the NUMERIC identifier has higher
precedence: the non-numeric side satisfies `LessThan` and not
`GreaterThan`. -/
theorem claim1_amended (mj mn pt : Nat) (r1 r2 : GoStr) (n : Int)
    (h1 : goParseInt64 ((splitOnChar '.' r1).headI) = none)
    (h2 : goParseInt64 ((splitOnChar '.' r2).headI) = some n) :
    satisfies ⟨mj, mn, pt, r1⟩ GreaterThan ⟨mj, mn, pt, r2⟩ = false ∧
      satisfies ⟨mj, mn, pt, r1⟩ LessThan ⟨mj, mn, pt, r2⟩ = true := by
  have hcr : compareReleases r2 r1 = 1 := compareReleases_num_alpha r2 r1 n h2 h1
  have hcr2 : compareReleases r1 r2 = -1 := by
    obtain ⟨s1, t1, e1⟩ := List.exists_cons_of_ne_nil (splitOnChar_ne_nil '.' r1)
    obtain ⟨s2, t2, e2⟩ := List.exists_cons_of_ne_nil (splitOnChar_ne_nil '.' r2)
    rw [e1] at h1
    rw [e2] at h2
    simp only [List.headI] at h1 h2
    have hr2 : r2 ≠ [] := by
      intro hc
      subst hc
      have e2' : s2 :: t2 = [[]] := e2.symm
      injection e2' with hs2 ht2
      rw [hs2, goParseInt64_nil] at h2
      cases h2
    unfold compareReleases
    rw [if_neg (by simp [hr2])]
    rw [e1, e2]
    simp only [relCmpSegs, h1, h2]
  constructor
  · rw [satisfies_gt_same, hcr2]
    decide
  · rw [satisfies_lt_same, hcr2]
    decide

/-- Claim C1 witness: the amended statement at release `a` versus
release `1`. -/
theorem claim1_witness :
    satisfies ⟨1, 0, 0, ['a']⟩ GreaterThan ⟨1, 0, 0, ['1']⟩ = false ∧
      satisfies ⟨1, 0, 0, ['a']⟩ LessThan ⟨1, 0, 0, ['1']⟩ = true :=
  claim1_amended 1 0 0 ['a'] ['1'] 1 (by decide) (by decide)

/-- Claim C2, counterexample: with equal numeric triples, release `2`
against release `1` yields `GreaterThan = false` and `LessThan = true` —
the opposite of the claim, which says the larger integer has higher
precedence. -/
theorem claim2_counterexample :
    satisfies ⟨1, 0, 0, ['2']⟩ GreaterThan ⟨1, 0, 0, ['1']⟩ = false ∧
      satisfies ⟨1, 0, 0, ['2']⟩ LessThan ⟨1, 0, 0, ['1']⟩ = true := by
  decide

/-- Claim C2 as amended: numeric release identifiers at the same position
are compared by Go's wrapping `int64` subtraction, with the SMALLER
integer receiving higher precedence (the subtraction's sign is inverted
in the source), provided the difference does not overflow `int64`. -/
theorem claim2_amended (mj mn pt : Nat) (r1 r2 : GoStr) (a b : Int)
    (h1 : goParseInt64 ((splitOnChar '.' r1).headI) = some a)
    (h2 : goParseInt64 ((splitOnChar '.' r2).headI) = some b)
    (hab : a < b) (hno : b - a ≤ 2 ^ 63) :
    satisfies ⟨mj, mn, pt, r1⟩ GreaterThan ⟨mj, mn, pt, r2⟩ = true ∧
      satisfies ⟨mj, mn, pt, r1⟩ LessThan ⟨mj, mn, pt, r2⟩ = false := by
  have hcr : compareReleases r1 r2 = 1 :=
    compareReleases_num_num r1 r2 a b h1 h2 hab hno
  constructor
  · rw [satisfies_gt_same, hcr]
    decide
  · rw [satisfies_lt_same, hcr]
    decide

/-- Claim C2 witness: the amended statement at releases `1` and `2`. -/
theorem claim2_witness :
    satisfies ⟨1, 0, 0, ['1']⟩ GreaterThan ⟨1, 0, 0, ['2']⟩ = true ∧
      satisfies ⟨1, 0, 0, ['1']⟩ LessThan ⟨1, 0, 0, ['2']⟩ = false :=
  claim2_amended 1 0 0 ['1'] ['2'] 1 2 (by decide) (by decide) (by decide)
    (by norm_num)

/-- Claim C3, counterexample: `1.1.0 ~ 1.0.0` is true even though the
minors differ, contradicting the claim that `ApproxGreater` requires
equal minors. -/
theorem claim3_counterexample :
    satisfies ⟨1, 1, 0, []⟩ ApproxGreater ⟨1, 0, 0, []⟩ = true := by
  decide

/-- Claim C3 as amended: `ApproxGreater` requires only equal MAJOR
versions; within an equal major it coincides with `GreaterEqual` (so a
larger minor on the base side does satisfy `~`). -/
theorem claim3_amended (b c : Version) :
    satisfies b ApproxGreater c =
      (decide (b.Major = c.Major) && satisfies b GreaterEqual c) := by
  by_cases hM : b.Major = c.Major <;>
    simp [satisfies, Equal, NotEqual, GreaterThan, LessThan, GreaterEqual,
      LessEqual, ApproxGreater, hM]

/-- Claim C4, counterexample: with equal numeric triples and the
non-empty release being the single numeric identifier `1`, the empty
release does NOT have higher precedence: both directions the claim
asserts are false. -/
theorem claim4_counterexample :
    satisfies ⟨1, 0, 0, []⟩ GreaterThan ⟨1, 0, 0, ['1']⟩ = false ∧
      satisfies ⟨1, 0, 0, ['1']⟩ LessThan ⟨1, 0, 0, []⟩ = false := by
  decide

/-- Claim C4 as amended: with equal triples and exactly one release
empty, the empty release has higher precedence only when the non-empty
release's first identifier is non-numeric; when it is numeric, the
NON-EMPTY release has higher precedence. -/
theorem claim4_amended (mj mn pt : Nat) (r : GoStr) (hr : r ≠ []) :
    (goParseInt64 ((splitOnChar '.' r).headI) = none →
      satisfies ⟨mj, mn, pt, []⟩ GreaterThan ⟨mj, mn, pt, r⟩ = true ∧
        satisfies ⟨mj, mn, pt, r⟩ LessThan ⟨mj, mn, pt, []⟩ = true) ∧
      (∀ n : Int, goParseInt64 ((splitOnChar '.' r).headI) = some n →
        satisfies ⟨mj, mn, pt, r⟩ GreaterThan ⟨mj, mn, pt, []⟩ = true ∧
          satisfies ⟨mj, mn, pt, []⟩ LessThan ⟨mj, mn, pt, r⟩ = true) := by
  constructor
  · intro h
    constructor
    · rw [satisfies_gt_same, compareReleases_empty_alpha r hr h]
      decide
    · rw [satisfies_lt_same, compareReleases_alpha_empty r hr h]
      decide
  · intro n h
    constructor
    · rw [satisfies_gt_same, compareReleases_num_empty r hr n h]
      decide
    · rw [satisfies_lt_same, compareReleases_empty_num r hr n h]
      decide

/-- Claim C4 witness: the amended statement at release `a` (non-numeric
branch applies) and, for the numeric branch, at release `1`. -/
theorem claim4_witness :
    (satisfies ⟨1, 0, 0, []⟩ GreaterThan ⟨1, 0, 0, ['a']⟩ = true ∧
      satisfies ⟨1, 0, 0, ['a']⟩ LessThan ⟨1, 0, 0, []⟩ = true) ∧
      (satisfies ⟨1, 0, 0, ['1']⟩ GreaterThan ⟨1, 0, 0, []⟩ = true ∧
        satisfies ⟨1, 0, 0, []⟩ LessThan ⟨1, 0, 0, ['1']⟩ = true) :=
  ⟨(claim4_amended 1 0 0 ['a'] (by decide)).1 (by decide),
    (claim4_amended 1 0 0 ['1'] (by decide)).2 1 (by decide)⟩

/-- Claim C5: whenever `ParseVersion` succeeds on `s` producing `v`,
re-parsing `v.String()` succeeds and yields `v` field for field. -/
theorem claim5_round_trip (s : GoStr) (v : Version)
    (h : parseVersion s = .ok v) : parseVersion (verText v) = .ok v := by
  obtain ⟨h1, h2, h3, h4⟩ := parseVersion_ok_inv s v h
  exact parseVersion_verText_ok v h1 h2 h3 h4

/-- Claim C5 witness: the round trip through the concrete string
`10.2.0-a.1`. -/
theorem claim5_witness :
    parseVersion (verText ⟨10, 2, 0, ['a', '.', '1']⟩) =
      .ok ⟨10, 2, 0, ['a', '.', '1']⟩ :=
  claim5_round_trip
    ['1', '0', '.', '2', '.', '0', '-', 'a', '.', '1']
    ⟨10, 2, 0, ['a', '.', '1']⟩ (by decide)

/-- Claim C6: the claim says no input can make a parser panic, but
`ParseDependency` panics when a token matches the constraint regex while
its version part fails version validation, e.g. `name =1.01.0`. -/
theorem claim6_panic :
    parseDependency
        ['n', 'a', 'm', 'e', ' ', '=', '1', '.', '0', '1', '.', '0'] =
      .panicked := by
  decide

/-- Claim C7: contrary to the claim (and to the repository's own test),
`ParseDependency` performs no name-grammar check beyond non-emptiness:
`1234 <3.2.5` parses successfully with name `1234`. -/
theorem claim7_no_name_check :
    parseDependency
        ['1', '2', '3', '4', ' ', '<', '3', '.', '2', '.', '5'] =
      .ok ⟨['1', '2', '3', '4'], [⟨LessThan, ⟨3, 2, 5, []⟩⟩], []⟩ := by
  decide

/-- Claim C8: contrary to the claim, a constraint token whose version has
a multi-digit major is rejected (the constraint regex allows only a
single digit before the first dot), even though `ParseVersion` itself
accepts the same version literal. -/
theorem claim8_multidigit_major :
    parseDependency
        ['n', 'a', 'm', 'e', ' ', '=', '1', '0', '.', '0', '.', '0'] =
      .err .urlFormat ∧
      parseVersion ['1', '0', '.', '0', '.', '0'] = .ok ⟨10, 0, 0, []⟩ := by
  decide

/-- Claim C9: contrary to the claim, `ParseDependency` of the empty string
returns the name-format error, not a distinct empty-input error (which
`ParseVersion` does have). -/
theorem claim9_empty_dep :
    parseDependency [] = .err .nameFormat ∧
      parseVersion [] = .error .empty := by
  decide

/-- Claim C10: `Satisfies` returns false for every operator value outside
the seven enumerated constants (the Go switch has no default case), and
is total. -/
theorem claim10_default_false (b c : Version) (op : Int)
    (h : op < 1 ∨ 7 < op) : satisfies b op c = false := by
  unfold satisfies
  rw [if_neg (by simp only [Equal]; omega),
    if_neg (by simp only [NotEqual]; omega),
    if_neg (by simp only [GreaterThan]; omega),
    if_neg (by simp only [LessThan]; omega),
    if_neg (by simp only [GreaterEqual]; omega),
    if_neg (by simp only [LessEqual]; omega),
    if_neg (by simp only [ApproxGreater]; omega)]

/-- Claim C10 witness: the zero operator value at concrete versions. -/
theorem claim10_witness :
    satisfies ⟨1, 0, 0, []⟩ 0 ⟨2, 0, 0, []⟩ = false :=
  claim10_default_false ⟨1, 0, 0, []⟩ ⟨2, 0, 0, []⟩ 0 (Or.inl (by norm_num))

end Pack
